import Mathlib

/-!
Shallow embedding of the coding-agent core (permission gate, capability
executors, orchestration loop, conversation state) of the repository
`danvoulez/coding-agent`, together with theorems settling the frozen
claims about its specification.

External collaborators (the filesystem, the shell, git, the network, the
LogLine remote service, the model API and the human on stdin) are
modelled as oracles: scripted answer streams and scripted effect
outcomes.  Every call an executor makes to a collaborator is recorded as
an event in a trace, so that ordering properties ("the effect runs only
after approval") are stated about traces.
-/

namespace CodingAgent

/-- Action kinds of `PermissionRequest` (src/tools/types.ts):
`'read' | 'write' | 'delete' | 'execute'`. -/
inductive Action where
  | read
  | write
  | delete
  | execute
deriving DecidableEq, Repr

/-- `PermissionRequest` (src/tools/types.ts): optional fields model the
optional TS properties. -/
structure PermissionRequest where
  action : Action
  path : Option String := none
  command : Option String := none
  details : Option String := none
deriving DecidableEq, Repr

/-- `PermissionResponse` (src/tools/types.ts). -/
structure PermissionResponse where
  approved : Bool
  reason : Option String := none
deriving DecidableEq, Repr

/-- `ToolResult` (src/tools/types.ts).  The untyped `data` field is
modelled as an optional string (its serialized form); executors fill it
from the collaborator oracle. -/
structure ToolResult where
  success : Bool
  output : Option String := none
  error : Option String := none
  data : Option String := none
deriving DecidableEq, Repr

/-- Parameter types of `ToolParameter` (src/tools/types.ts). -/
inductive ParamType where
  | string
  | number
  | boolean
  | array
  | object
deriving DecidableEq, Repr

/-- `ToolParameter` (src/tools/types.ts); the `description` text, which
never influences control flow, is elided. -/
structure ToolParameter where
  name : String
  type : ParamType
  required : Bool := false
deriving DecidableEq, Repr

/-- JavaScript `a || b` on an optional string: `none` and the empty
string are falsy. -/
def jsOr (a : Option String) (b : String) : String :=
  match a with
  | none => b
  | some s => if s = "" then b else s

/-- ASCII model of JS `String.prototype.toLowerCase` on one
character. -/
def lowerChar (c : Char) : Char :=
  if 65 ≤ c.toNat ∧ c.toNat ≤ 90 then Char.ofNat (c.toNat + 32) else c

/-- ASCII model of JS `String.prototype.toLowerCase`. -/
def jsToLower (s : String) : String :=
  ⟨s.data.map lowerChar⟩

/-- Whitespace characters removed by JS `String.prototype.trim`. -/
def wsChar (c : Char) : Bool :=
  c = ' ' || c = '\t' || c = '\n' || c = '\r'

/-- Model of JS `String.prototype.trim`. -/
def jsTrim (s : String) : String :=
  ⟨((s.data.dropWhile wsChar).reverse.dropWhile wsChar).reverse⟩

/-- State of the permission module (src/tools/permissions.ts): the
module-level `autoApproveEnabled` flag, the pending lines on stdin
(the human's future answers), the prompts rendered so far and the
console audit lines.  An empty `answers` stream behaves as a stream of
empty lines. -/
structure PermState where
  autoApproveEnabled : Bool := false
  answers : List String := []
  promptLog : List String := []
  consoleLog : List String := []
deriving DecidableEq, Repr

/-- `setAutoApprove` (src/tools/permissions.ts). -/
def setAutoApprove (st : PermState) (enabled : Bool) : PermState :=
  { st with autoApproveEnabled := enabled }

/-- `isAutoApproveEnabled` (src/tools/permissions.ts). -/
def isAutoApproveEnabled (st : PermState) : Bool :=
  st.autoApproveEnabled

/-- The audit line printed when auto-approve is on
(src/tools/permissions.ts, the `switch` building `logMessage`).
Emoji prefixes are elided. -/
def autoApproveLog (req : PermissionRequest) : String :=
  match req.action with
  | .read => "Auto-approved: Reading " ++ jsOr req.path "undefined"
  | .write => "Auto-approved: Writing to " ++ jsOr req.path "undefined"
  | .delete => "Auto-approved: Deleting " ++ jsOr req.path "undefined"
  | .execute => "Auto-approved: Running " ++ jsOr req.command "undefined"

/-- The interactive prompt text (src/tools/permissions.ts, the `switch`
building `prompt` plus the final question line).  Emoji prefixes are
elided. -/
def buildPrompt (req : PermissionRequest) : String :=
  let base :=
    match req.action with
    | .read => "AI wants to read file: " ++ jsOr req.path "undefined" ++ "\n"
    | .write =>
        "AI wants to write to file: " ++ jsOr req.path "undefined" ++ "\n" ++
          (match req.details with
           | some d => if d = "" then "" else "   Changes: " ++ d ++ "\n"
           | none => "")
    | .delete => "AI wants to delete: " ++ jsOr req.path "undefined" ++ "\n"
    | .execute =>
        "AI wants to run command: " ++ jsOr req.command "undefined" ++ "\n" ++
          (match req.details with
           | some d => if d = "" then "" else "   Purpose: " ++ d ++ "\n"
           | none => "")
  base ++ "Allow this action? (yes/no/always/never): "

/-- `requestPermission` (src/tools/permissions.ts).  When auto-approve
is on it returns approval immediately, logging an audit line; otherwise
it renders the prompt, consumes one line of stdin, normalizes it with
`toLowerCase().trim()`, and approves exactly when the normalized answer
is `yes`, `y` or `always`.  Every other answer yields
`approved=false, reason="User denied permission"`. -/
def requestPermission (st : PermState) (req : PermissionRequest) :
    PermissionResponse × PermState :=
  if st.autoApproveEnabled then
    ({ approved := true },
     { st with consoleLog := st.consoleLog ++ [autoApproveLog req] })
  else
    let answer := st.answers.headD ""
    let st' := { st with
      answers := st.answers.tail
      promptLog := st.promptLog ++ [buildPrompt req] }
    let normalized := jsTrim (jsToLower answer)
    if normalized = "yes" ∨ normalized = "y" ∨ normalized = "always" then
      ({ approved := true }, st')
    else
      ({ approved := false, reason := some "User denied permission" }, st')

/-- The effectful collaborator calls the executors can make: simple-git
methods (src/tools/git.ts), `fs`/`path` operations (src/tools/filesystem.ts),
`exec` (src/tools/command.ts), `fetch` (src/tools/web.ts) and
`client.boot` of the LogLine client (src/tools/logline.ts). -/
inductive Effect where
  | gitStatus
  | gitDiff
  | gitAdd (path : String)
  | gitCommit (message : String)
  | gitCheckoutLocalBranch (branchName : String)
  | gitPush (remote : String) (branch : String)
  | fsReadFile (path : String)
  | fsMkdir (dir : String)
  | fsWriteFile (path : String) (content : String)
  | fsReaddir (path : String)
  | execCommand (command : String)
  | httpFetch (url : String)
  | loglineBoot (fn : String)
deriving DecidableEq, Repr

/-- One entry in the observable trace of an executor invocation: either
a round trip through the permission gate or an effectful collaborator
call. -/
inductive Event where
  | permRequest (req : PermissionRequest) (resp : PermissionResponse)
  | eff (e : Effect)
deriving DecidableEq, Repr

deriving instance DecidableEq for Except

/-- The world an executor runs in: the permission-module state, the
trace of events so far, and the scripted outcomes of the successive
effectful collaborator calls (`Except.error` models the call throwing;
an exhausted script behaves as calls returning `""`).  The string an
effect returns stands for whatever value the collaborator produced
(file contents, command output, parsed web results, ...). -/
structure World where
  perm : PermState := {}
  trace : List Event := []
  effects : List (Except String String) := []
deriving DecidableEq, Repr

/-- Perform one effectful collaborator call: records the event and
consumes the next scripted outcome. -/
def performEffect (w : World) (e : Effect) : Except String String × World :=
  (w.effects.headD (.ok ""),
   { w with trace := w.trace ++ [.eff e], effects := w.effects.tail })

/-- `requestPermission` as seen from an executor: runs the permission
module and records the round trip in the trace. -/
def requestPermissionW (w : World) (req : PermissionRequest) :
    PermissionResponse × World :=
  let (resp, p') := requestPermission w.perm req
  (resp, { w with perm := p', trace := w.trace ++ [.permRequest req resp] })

/-- Executor parameter maps (`Record<string, any>`): an association
list; all values are modelled as strings. -/
abbrev ToolInput : Type := List (String × String)

/-- Destructuring a parameter out of the map; an absent parameter
(JS `undefined`) is modelled as the default given at the use site. -/
def getParamD (input : ToolInput) (name : String) (d : String) : String :=
  match List.find? (fun p => p.1 = name) input with
  | some p => p.2
  | none => d

/-- Optional parameter lookup. -/
def getParam (input : ToolInput) (name : String) : Option String :=
  (List.find? (fun p => p.1 = name) input).map (fun p => p.2)

/-- Model of `path.dirname` used by the write-file executor: everything
up to the last slash, `"."` when there is no slash. -/
def dirname (p : String) : String :=
  let parts := p.splitOn "/"
  if parts.length ≤ 1 then "." else String.intercalate "/" parts.dropLast

/-- `readFileTool.execute` (src/tools/filesystem.ts): request `read`
permission for the path, then `fs.readFile`; a denial or a thrown
filesystem error becomes a failed `ToolResult`. -/
def readFile_execute (input : ToolInput) (w : World) : ToolResult × World :=
  let filePath := getParamD input "path" "undefined"
  let (permission, w₁) := requestPermissionW w { action := .read, path := some filePath }
  if !permission.approved then
    ({ success := false, error := some (jsOr permission.reason "Permission denied") }, w₁)
  else
    match performEffect w₁ (.fsReadFile filePath) with
    | (.ok content, w₂) => ({ success := true, output := some content }, w₂)
    | (.error e, w₂) => ({ success := false, error := some e }, w₂)

/-- `writeFileTool.execute` (src/tools/filesystem.ts): request `write`
permission (details report the content length), then `fs.mkdir` on the
parent directory and `fs.writeFile`. -/
def writeFile_execute (input : ToolInput) (w : World) : ToolResult × World :=
  let filePath := getParamD input "path" "undefined"
  let content := getParamD input "content" ""
  let (permission, w₁) := requestPermissionW w
    { action := .write, path := some filePath,
      details := some (toString content.length ++ " characters") }
  if !permission.approved then
    ({ success := false, error := some (jsOr permission.reason "Permission denied") }, w₁)
  else
    match performEffect w₁ (.fsMkdir (dirname filePath)) with
    | (.error e, w₂) => ({ success := false, error := some e }, w₂)
    | (.ok _, w₂) =>
        match performEffect w₂ (.fsWriteFile filePath content) with
        | (.ok _, w₃) =>
            ({ success := true, output := some ("Successfully wrote to " ++ filePath) }, w₃)
        | (.error e, w₃) => ({ success := false, error := some e }, w₃)

/-- `listDirectoryTool.execute` (src/tools/filesystem.ts): request
`read` permission for the directory, then `fs.readdir`; the formatted
entry listing is abstracted to the oracle's string. -/
def listDirectory_execute (input : ToolInput) (w : World) : ToolResult × World :=
  let dirPath := getParamD input "path" "undefined"
  let (permission, w₁) := requestPermissionW w { action := .read, path := some dirPath }
  if !permission.approved then
    ({ success := false, error := some (jsOr permission.reason "Permission denied") }, w₁)
  else
    match performEffect w₁ (.fsReaddir dirPath) with
    | (.ok entries, w₂) =>
        ({ success := true, output := some entries, data := some entries }, w₂)
    | (.error e, w₂) => ({ success := false, error := some e }, w₂)

/-- `executeCommandTool.execute` (src/tools/command.ts): request
`execute` permission for the command (details carry the optional
`purpose` parameter), then `exec`. -/
def executeCommand_execute (input : ToolInput) (w : World) : ToolResult × World :=
  let command := getParamD input "command" "undefined"
  let purpose := getParam input "purpose"
  let (permission, w₁) := requestPermissionW w
    { action := .execute, command := some command, details := purpose }
  if !permission.approved then
    ({ success := false, error := some (jsOr permission.reason "Permission denied") }, w₁)
  else
    match performEffect w₁ (.execCommand command) with
    | (.ok out, w₂) => ({ success := true, output := some out, data := some out }, w₂)
    | (.error e, w₂) =>
        ({ success := false, error := some (jsOr (some e) "Command execution failed") }, w₂)

/-- `gitStatusTool.execute` (src/tools/git.ts): calls `git.status()`
directly — there is no permission request on this path.  The formatted
branch/modified/staged/untracked summary is abstracted to the oracle's
string. -/
def gitStatus_execute (w : World) : ToolResult × World :=
  match performEffect w .gitStatus with
  | (.ok status, w₁) => ({ success := true, output := some status, data := some status }, w₁)
  | (.error e, w₁) =>
      ({ success := false, error := some (jsOr (some e) "Failed to get git status") }, w₁)

/-- `gitDiffTool.execute` (src/tools/git.ts): calls `git.diff()`
directly — there is no permission request on this path; an empty diff
is reported as `No unstaged changes`. -/
def gitDiff_execute (w : World) : ToolResult × World :=
  match performEffect w .gitDiff with
  | (.ok diff, w₁) =>
      ({ success := true, output := some (jsOr (some diff) "No unstaged changes") }, w₁)
  | (.error e, w₁) =>
      ({ success := false, error := some (jsOr (some e) "Failed to get git diff") }, w₁)

/-- `gitCommitTool.execute` (src/tools/git.ts): request `execute`
permission describing the staged commit, then `git.add('.')` and
`git.commit(message)`. -/
def gitCommit_execute (input : ToolInput) (w : World) : ToolResult × World :=
  let message := getParamD input "message" "undefined"
  let (permission, w₁) := requestPermissionW w
    { action := .execute,
      command := some ("git add . && git commit -m \"" ++ message ++ "\""),
      details := some "Stage and commit all changes" }
  if !permission.approved then
    ({ success := false, error := some (jsOr permission.reason "Permission denied") }, w₁)
  else
    match performEffect w₁ (.gitAdd ".") with
    | (.error e, w₂) =>
        ({ success := false, error := some (jsOr (some e) "Failed to commit") }, w₂)
    | (.ok _, w₂) =>
        match performEffect w₂ (.gitCommit message) with
        | (.ok res, w₃) =>
            ({ success := true, output := some ("Committed: " ++ res), data := some res }, w₃)
        | (.error e, w₃) =>
            ({ success := false, error := some (jsOr (some e) "Failed to commit") }, w₃)

/-- `gitCreateBranchTool.execute` (src/tools/git.ts): request `execute`
permission, then `git.checkoutLocalBranch(branchName)`. -/
def gitCreateBranch_execute (input : ToolInput) (w : World) : ToolResult × World :=
  let branchName := getParamD input "branchName" "undefined"
  let (permission, w₁) := requestPermissionW w
    { action := .execute,
      command := some ("git checkout -b " ++ branchName),
      details := some "Create and switch to new branch" }
  if !permission.approved then
    ({ success := false, error := some (jsOr permission.reason "Permission denied") }, w₁)
  else
    match performEffect w₁ (.gitCheckoutLocalBranch branchName) with
    | (.ok _, w₂) =>
        ({ success := true,
           output := some ("Created and switched to branch: " ++ branchName) }, w₂)
    | (.error e, w₂) =>
        ({ success := false, error := some (jsOr (some e) "Failed to create branch") }, w₂)

/-- `gitPushTool.execute` (src/tools/git.ts): first calls
`git.status()` (an effect performed before any permission request) to
default the branch name, then requests `execute` permission and calls
`git.push(remote, branchName)`. -/
def gitPush_execute (input : ToolInput) (w : World) : ToolResult × World :=
  let remote := getParamD input "remote" "origin"
  let branch := getParam input "branch"
  match performEffect w .gitStatus with
  | (.error e, w₁) =>
      ({ success := false, error := some (jsOr (some e) "Failed to push") }, w₁)
  | (.ok status, w₁) =>
      let branchName := jsOr branch status
      let (permission, w₂) := requestPermissionW w₁
        { action := .execute,
          command := some ("git push " ++ remote ++ " " ++ branchName),
          details := some "Push commits to remote repository" }
      if !permission.approved then
        ({ success := false, error := some (jsOr permission.reason "Permission denied") }, w₂)
      else
        match performEffect w₂ (.gitPush remote branchName) with
        | (.ok _, w₃) =>
            ({ success := true, output := some ("Pushed to " ++ remote ++ "/" ++ branchName) }, w₃)
        | (.error e, w₃) =>
            ({ success := false, error := some (jsOr (some e) "Failed to push") }, w₃)

/-- `webSearchTool.execute` (src/tools/web.ts): request `execute`
permission, then fetch the DuckDuckGo HTML page.  Parsing and result
formatting are abstracted to the oracle's string; an empty string
stands for zero parsed results, reported as `No results found`. -/
def webSearch_execute (input : ToolInput) (w : World) : ToolResult × World :=
  let query := getParamD input "query" "undefined"
  let (permission, w₁) := requestPermissionW w
    { action := .execute,
      command := some ("web search: \"" ++ query ++ "\""),
      details := some "Search the internet" }
  if !permission.approved then
    ({ success := false, error := some (jsOr permission.reason "Permission denied") }, w₁)
  else
    match performEffect w₁ (.httpFetch ("https://html.duckduckgo.com/html/?q=" ++ query)) with
    | (.error e, w₂) =>
        ({ success := false, error := some (jsOr (some e) "Failed to search web") }, w₂)
    | (.ok formatted, w₂) =>
        if formatted = "" then
          ({ success := false, error := some "No results found" }, w₂)
        else
          ({ success := true, output := some formatted, data := some formatted }, w₂)

/-- `fetchWebpageTool.execute` (src/tools/web.ts): request `execute`
permission, then fetch the page.  HTML cleanup is abstracted to the
oracle's string (the extracted `cleanText`); the 8000-character
truncation with a `...` marker is kept. -/
def fetchWebpage_execute (input : ToolInput) (w : World) : ToolResult × World :=
  let url := getParamD input "url" "undefined"
  let (permission, w₁) := requestPermissionW w
    { action := .execute,
      command := some ("fetch webpage: " ++ url),
      details := some "Download and read webpage content" }
  if !permission.approved then
    ({ success := false, error := some (jsOr permission.reason "Permission denied") }, w₁)
  else
    match performEffect w₁ (.httpFetch url) with
    | (.error e, w₂) =>
        ({ success := false, error := some (jsOr (some e) "Failed to fetch webpage") }, w₂)
    | (.ok cleanText, w₂) =>
        let truncated :=
          if 8000 < cleanText.length then cleanText.take 8000 ++ "..." else cleanText
        ({ success := true, output := some truncated, data := some cleanText }, w₂)

/-- `logLinePromptFetchTool(client).execute` (src/tools/logline.ts):
calls `client.boot(BOOT_FUNCTIONS.PROMPT_FETCH, ...)` directly — there
is no permission request on this path.  The boot-function identifier is
an opaque label and the compiled prompt text comes from the oracle. -/
def logLinePromptFetch_execute (w : World) : ToolResult × World :=
  match performEffect w (.loglineBoot "PROMPT_FETCH") with
  | (.ok text, w₁) => ({ success := true, output := some text, data := some text }, w₁)
  | (.error e, w₁) =>
      ({ success := false,
         error := some (jsOr (some e) "Failed to fetch prompt from LogLine") }, w₁)

/-- `logLineMemoryStoreTool(client).execute` (src/tools/logline.ts):
calls `client.boot(BOOT_FUNCTIONS.MEMORY_STORE, ...)` directly — there
is no permission request on this path. -/
def logLineMemoryStore_execute (w : World) : ToolResult × World :=
  match performEffect w (.loglineBoot "MEMORY_STORE") with
  | (.ok id, w₁) =>
      ({ success := true,
         output := some ("Memory stored successfully with ID: " ++ jsOr (some id) "unknown"),
         data := some id }, w₁)
  | (.error e, w₁) =>
      ({ success := false,
         error := some (jsOr (some e) "Failed to store memory in LogLine") }, w₁)

/-- `logLineMemorySearchTool(client).execute` (src/tools/logline.ts):
calls `client.boot(BOOT_FUNCTIONS.MEMORY_STORE, action search)`
directly — there is no permission request on this path; an empty
formatted result list is reported as `No memories found`. -/
def logLineMemorySearch_execute (w : World) : ToolResult × World :=
  match performEffect w (.loglineBoot "MEMORY_STORE") with
  | (.ok results, w₁) =>
      ({ success := true,
         output := some (jsOr (some results) "No memories found"),
         data := some results }, w₁)
  | (.error e, w₁) =>
      ({ success := false,
         error := some (jsOr (some e) "Failed to search memories in LogLine") }, w₁)

/-- The uniform capability contract `Tool` (src/tools/types.ts): name,
declared parameter schema and executor.  The `description` text, which
never influences control flow, is elided. -/
structure Tool where
  name : String
  parameters : List ToolParameter
  execute : ToolInput → World → ToolResult × World

/-- `readFileTool` (src/tools/filesystem.ts). -/
def readFileTool : Tool :=
  { name := "read_file"
    parameters := [{ name := "path", type := .string, required := true }]
    execute := readFile_execute }

/-- `writeFileTool` (src/tools/filesystem.ts). -/
def writeFileTool : Tool :=
  { name := "write_file"
    parameters := [{ name := "path", type := .string, required := true },
                   { name := "content", type := .string, required := true }]
    execute := writeFile_execute }

/-- `listDirectoryTool` (src/tools/filesystem.ts). -/
def listDirectoryTool : Tool :=
  { name := "list_directory"
    parameters := [{ name := "path", type := .string, required := true }]
    execute := listDirectory_execute }

/-- `fileSystemTools` (src/tools/filesystem.ts). -/
def fileSystemTools : List Tool := [readFileTool, writeFileTool, listDirectoryTool]

/-- `executeCommandTool` (src/tools/command.ts). -/
def executeCommandTool : Tool :=
  { name := "execute_command"
    parameters := [{ name := "command", type := .string, required := true },
                   { name := "purpose", type := .string, required := false }]
    execute := executeCommand_execute }

/-- `commandTools` (src/tools/command.ts). -/
def commandTools : List Tool := [executeCommandTool]

/-- `gitStatusTool` (src/tools/git.ts). -/
def gitStatusTool : Tool :=
  { name := "git_status", parameters := []
    execute := fun _ w => gitStatus_execute w }

/-- `gitDiffTool` (src/tools/git.ts). -/
def gitDiffTool : Tool :=
  { name := "git_diff", parameters := []
    execute := fun _ w => gitDiff_execute w }

/-- `gitCommitTool` (src/tools/git.ts). -/
def gitCommitTool : Tool :=
  { name := "git_commit"
    parameters := [{ name := "message", type := .string, required := true }]
    execute := gitCommit_execute }

/-- `gitCreateBranchTool` (src/tools/git.ts). -/
def gitCreateBranchTool : Tool :=
  { name := "git_create_branch"
    parameters := [{ name := "branchName", type := .string, required := true }]
    execute := gitCreateBranch_execute }

/-- `gitPushTool` (src/tools/git.ts). -/
def gitPushTool : Tool :=
  { name := "git_push"
    parameters := [{ name := "remote", type := .string, required := false },
                   { name := "branch", type := .string, required := false }]
    execute := gitPush_execute }

/-- `gitTools` (src/tools/git.ts). -/
def gitTools : List Tool :=
  [gitStatusTool, gitDiffTool, gitCommitTool, gitCreateBranchTool, gitPushTool]

/-- `webSearchTool` (src/tools/web.ts). -/
def webSearchTool : Tool :=
  { name := "web_search"
    parameters := [{ name := "query", type := .string, required := true },
                   { name := "num_results", type := .number, required := false }]
    execute := webSearch_execute }

/-- `fetchWebpageTool` (src/tools/web.ts). -/
def fetchWebpageTool : Tool :=
  { name := "fetch_webpage"
    parameters := [{ name := "url", type := .string, required := true }]
    execute := fetchWebpage_execute }

/-- `webTools` (src/tools/web.ts). -/
def webTools : List Tool := [webSearchTool, fetchWebpageTool]

/-- `allTools` (src/tools/index.ts). -/
def allTools : List Tool := fileSystemTools ++ commandTools ++ gitTools ++ webTools

/-- `createLogLineTools(client)` (src/tools/logline.ts). -/
def createLogLineTools : List Tool :=
  [{ name := "logline_prompt_fetch"
     parameters := [{ name := "prompt_id", type := .string, required := true },
                    { name := "vars", type := .object, required := false }]
     execute := fun _ w => logLinePromptFetch_execute w },
   { name := "logline_memory_store"
     parameters := [{ name := "content", type := .string, required := true },
                    { name := "tags", type := .array, required := false },
                    { name := "memory_type", type := .string, required := false },
                    { name := "sensitivity", type := .string, required := false }]
     execute := fun _ w => logLineMemoryStore_execute w },
   { name := "logline_memory_search"
     parameters := [{ name := "query", type := .string, required := true },
                    { name := "limit", type := .number, required := false }]
     execute := fun _ w => logLineMemorySearch_execute w }]

/-- `Map.set` semantics of the registry (src/agents/claude.ts
constructor): setting an existing key overwrites it in place, a new key
is appended. -/
def setTool (m : List Tool) (t : Tool) : List Tool :=
  if m.any (fun u => u.name = t.name) then
    m.map (fun u => if u.name = t.name then t else u)
  else
    m ++ [t]

/-- Registry assembly in the `ClaudeAgent` constructor
(src/agents/claude.ts): all local tools, then — only when a LogLine
client is configured — the LogLine tools, later registrations
overwriting earlier ones of the same name. -/
def buildRegistry (logLineConfigured : Bool) : List Tool :=
  let m := allTools.foldl setTool []
  if logLineConfigured then createLogLineTools.foldl setTool m else m

/-- `this.tools.get(name)` (src/agents/claude.ts). -/
def findTool (m : List Tool) (name : String) : Option Tool :=
  m.find? (fun t => t.name = name)

/-- Content blocks of a model response (the Anthropic API collaborator):
`text` and `tool_use` blocks. -/
inductive ContentBlock where
  | text (s : String)
  | toolUse (id : String) (name : String) (input : ToolInput)
deriving DecidableEq, Repr

/-- Blocks stored inside a history message: the response blocks kept in
`assistantContent` plus the `tool_result` block built for the answering
message (src/agents/claude.ts `sendMessage`). -/
inductive HistBlock where
  | text (s : String)
  | toolUse (id : String) (name : String) (input : ToolInput)
  | toolResult (toolUseId : String) (content : String)
deriving DecidableEq, Repr

/-- `ClaudeMessage` (src/agents/claude.ts): `content` is either a plain
string or a block array. -/
structure ClaudeMessage where
  role : String
  content : Sum String (List HistBlock)
deriving DecidableEq, Repr

/-- Stop reasons of a model response distinguished by `sendMessage`
(src/agents/claude.ts): `end_turn`, `tool_use`, or anything else. -/
inductive StopReason where
  | endTurn
  | toolUse
  | other (s : String)
deriving DecidableEq, Repr

/-- A model response: ordered content blocks plus a stop reason. -/
structure ModelResponse where
  content : List ContentBlock
  stop_reason : StopReason
deriving DecidableEq, Repr

/-- The `tool_result` content string (src/agents/claude.ts):
`result.success ? result.output || JSON.stringify(result.data) :
Error: result.error`, with JS falsiness on the empty output string. -/
def resultContent (result : ToolResult) : String :=
  if result.success then
    jsOr result.output (jsOr result.data "undefined")
  else
    "Error: " ++ jsOr result.error "undefined"

/-- Result of one pass over a response's content blocks: the
accumulated `textContent`, the stream log, the world, the history and
whether a tool call was executed (the `continueLoop = true; break`
path). -/
structure BlockPass where
  textContent : String
  streamed : List String
  world : World
  history : List ClaudeMessage
  toolHandled : Bool
deriving DecidableEq, Repr

/-- One pass over `response.content` in `sendMessage`
(src/agents/claude.ts): text blocks are streamed and accumulated; on a
`tool_use` block the block is kept in `assistantContent`, an unknown
name is logged and skipped (`continue` — nothing is appended for its
call id), and the first registered tool is executed, its assistant and
tool-result messages pushed, and the pass stops (`break`). -/
def processBlocks (tools : List Tool) (blocks : List ContentBlock)
    (textContent : String) (assistantContent : List HistBlock)
    (streamed : List String) (w : World) (history : List ClaudeMessage) :
    BlockPass :=
  match blocks with
  | [] => ⟨textContent, streamed, w, history, false⟩
  | .text s :: rest =>
      processBlocks tools rest (textContent ++ s) (assistantContent ++ [.text s])
        (streamed ++ [s]) w history
  | .toolUse id name input :: rest =>
      let ac := assistantContent ++ [.toolUse id name input]
      match findTool tools name with
      | none => processBlocks tools rest textContent ac streamed w history
      | some tool =>
          let (result, w') := tool.execute input w
          let history' := history ++
            [{ role := "assistant", content := .inr ac },
             { role := "user", content := .inr [.toolResult id (resultContent result)] }]
          ⟨textContent, streamed, w', history', true⟩

/-- Final state of a `sendMessage` run: the returned string (or the
propagated model-call error), the conversation history, the world and
the stream log. -/
structure LoopResult where
  result : Except String String
  history : List ClaudeMessage
  world : World
  streamed : List String
deriving DecidableEq, Repr

/-- The `while (continueLoop)` body of `sendMessage`
(src/agents/claude.ts): each iteration consumes one scripted model-call
outcome (`Except.error` models the API call throwing, which propagates
with the state as it stood; an exhausted script likewise models a
failing call).  After processing the blocks: on `end_turn` the final
assistant text turn is appended and its text returned; on any other
stop reason that is not `tool_use` the loop exits returning the
`assistantResponse` accumulator (never assigned outside the `end_turn`
branch); on `tool_use` the loop repeats. -/
def sendLoop (tools : List Tool) (assistantResponse : String)
    (history : List ClaudeMessage) (w : World) (streamed : List String) :
    List (Except String ModelResponse) → LoopResult
  | [] => ⟨.error "model call failed", history, w, streamed⟩
  | .error e :: _ => ⟨.error e, history, w, streamed⟩
  | .ok response :: rest =>
      let pb := processBlocks tools response.content "" [] streamed w history
      if response.stop_reason = .endTurn then
        ⟨.ok pb.textContent,
         pb.history ++ [{ role := "assistant", content := .inl pb.textContent }],
         pb.world, pb.streamed⟩
      else if response.stop_reason ≠ .toolUse then
        ⟨.ok assistantResponse, pb.history, pb.world, pb.streamed⟩
      else
        sendLoop tools assistantResponse pb.history pb.world pb.streamed rest

/-- `sendMessage(userMessage, onStream)` (src/agents/claude.ts): pushes
the user message onto the history, then runs the loop with
`assistantResponse` initialized to the empty string. -/
def sendMessage (tools : List Tool) (history : List ClaudeMessage)
    (userMessage : String) (script : List (Except String ModelResponse)) (w : World) :
    LoopResult :=
  sendLoop tools "" (history ++ [{ role := "user", content := .inl userMessage }]) w [] script

/-- Reference semantics of the conversation log.  A `ClaudeAgent`
instance stores its `conversationHistory` as a mutable JS array; the
heap maps array references (allocation indices) to their current
contents, so that aliasing between the value `getHistory` returns and
the live log is observable. -/
structure Heap where
  arrays : List (List ClaudeMessage)

/-- A reference to a history array on the heap. -/
abbrev HistRef := Nat

/-- Dereference: the current contents of the array. -/
def Heap.get (h : Heap) (r : HistRef) : List ClaudeMessage :=
  h.arrays.getD r []

/-- Append a message to the array at a given heap index, leaving every
other array untouched. -/
def pushAt : List (List ClaudeMessage) → Nat → ClaudeMessage → List (List ClaudeMessage)
  | [], _, _ => []
  | a :: rest, 0, m => (a ++ [m]) :: rest
  | a :: rest, n + 1, m => a :: pushAt rest n m

/-- In-place `push` on the array behind a reference
(`this.conversationHistory.push(...)` in src/agents/claude.ts). -/
def Heap.push (h : Heap) (r : HistRef) (m : ClaudeMessage) : Heap :=
  ⟨pushAt h.arrays r m⟩

/-- Allocate a fresh empty array (`[]` literal). -/
def Heap.alloc (h : Heap) : HistRef × Heap :=
  (h.arrays.length, ⟨h.arrays ++ [[]]⟩)

/-- The part of a `ClaudeAgent` instance relevant to conversation
state: the reference its `conversationHistory` field holds. -/
structure AgentRef where
  histRef : HistRef

/-- `getHistory` (src/agents/claude.ts): `return this.conversationHistory`
— the method returns the field itself, i.e. the live reference, not a
copy. -/
def getHistory (a : AgentRef) : HistRef :=
  a.histRef

/-- Appending one turn to the log
(`this.conversationHistory.push(turn)`). -/
def appendTurn (h : Heap) (a : AgentRef) (m : ClaudeMessage) : Heap :=
  h.push a.histRef m

/-- `clearHistory` (src/agents/claude.ts):
`this.conversationHistory = []` rebinds the field to a freshly
allocated empty array; the old array is untouched. -/
def clearHistory (h : Heap) (a : AgentRef) : Heap × AgentRef :=
  let (r, h') := h.alloc
  (h', { a with histRef := r })

/-- `nanoid()` (src/cli/index.ts) modelled as a fresh-identifier
supply: each call returns the next identifier never issued before, so
distinct calls yield distinct identifiers. -/
def nanoid (next : Nat) : Nat × Nat :=
  (next, next + 1)

/-- CLI session state (src/cli/index.ts module scope): the
`currentSessionId`, the CLI's own `conversationHistory`, the agent's
history (absent while `agent` is `null`), the permission module's
auto-approve flag, and the identifier supply backing `nanoid`. -/
structure CliState where
  currentSessionId : Nat
  conversationHistory : List (String × String)
  agentHistory : Option (List ClaudeMessage)
  perm : PermState
  nextId : Nat

/-- The `/clear` command branch of the CLI loop (src/cli/index.ts):
empties the CLI history, mints a new session id with `nanoid()`, and
calls `agent.clearHistory()` when an agent exists; the permission
module is not touched. -/
def clearCommand (st : CliState) : CliState :=
  let (id, next) := nanoid st.nextId
  { st with
    conversationHistory := []
    currentSessionId := id
    agentHistory := st.agentHistory.map (fun _ => [])
    nextId := next }

/-- The `/auto` command branch of the CLI loop (src/cli/index.ts):
toggles the auto-approve flag. -/
def autoCommand (st : CliState) : CliState :=
  { st with perm := setAutoApprove st.perm (!(isAutoApproveEnabled st.perm)) }

/-- Checks that in a trace every effectful collaborator call is
preceded by a permission-gate round trip whose decision was
`approved=true`.  The accumulator records whether such an approval has
been seen so far. -/
def gatedFrom (approvedSoFar : Bool) : List Event → Bool
  | [] => true
  | .permRequest _ resp :: rest => gatedFrom (approvedSoFar || resp.approved) rest
  | .eff _ :: rest => approvedSoFar && gatedFrom approvedSoFar rest

/-- The call id answered by a history block, when it is a
`tool_result` block. -/
def histBlockResultId : HistBlock → Option String
  | .toolResult id _ => some id
  | _ => none

/-- The call ids answered inside one history message. -/
def msgResultIds (m : ClaudeMessage) : List String :=
  match m.content with
  | .inl _ => []
  | .inr blocks => blocks.filterMap histBlockResultId

/-- All `tool_result` call ids appearing in a history, in order. -/
def toolResultIds (history : List ClaudeMessage) : List String :=
  history.flatMap msgResultIds

/-- Whether a block list contains no `tool_result` block (the shape of
every `assistantContent` accumulator the loop builds, which keeps only
`text` and `tool_use` blocks of the response). -/
def noToolResult (blocks : List HistBlock) : Bool :=
  blocks.all (fun b => (histBlockResultId b).isNone)

/-- The id of the first `tool_use` block of a response whose tool name
is in the registry — the one and only block `sendMessage` resolves. -/
def firstKnownId (tools : List Tool) : List ContentBlock → Option String
  | [] => none
  | .text _ :: rest => firstKnownId tools rest
  | .toolUse id name _ :: rest =>
      match findTool tools name with
      | none => firstKnownId tools rest
      | some _ => some id

/-- The id of the first `tool_use` block of a response, whatever its
name. -/
def firstToolUseId : List ContentBlock → Option String
  | [] => none
  | .text _ :: rest => firstToolUseId rest
  | .toolUse id _ _ :: _ => some id

/-! ### Shared lemmas -/

theorem gatedFrom_true : ∀ evs : List Event, gatedFrom true evs = true
  | [] => rfl
  | .permRequest _ r :: rest => by simp [gatedFrom, gatedFrom_true rest]
  | .eff _ :: rest => by simp [gatedFrom, gatedFrom_true rest]

theorem requestPermissionW_trace (w : World) (req : PermissionRequest) :
    (requestPermissionW w req).2.trace =
      w.trace ++ [.permRequest req (requestPermissionW w req).1] := rfl

theorem requestPermissionW_effects (w : World) (req : PermissionRequest) :
    (requestPermissionW w req).2.effects = w.effects := rfl

theorem pushAt_getD (arrays : List (List ClaudeMessage)) (r : Nat) (m : ClaudeMessage)
    (h : r < arrays.length) :
    (pushAt arrays r m).getD r [] = arrays.getD r [] ++ [m] := by
  induction arrays generalizing r with
  | nil => simp at h
  | cons a rest ih =>
      cases r with
      | zero => simp [pushAt]
      | succ n =>
          simp only [pushAt, List.getD_cons_succ]
          exact ih n (by simpa using h)

theorem pushAt_length (arrays : List (List ClaudeMessage)) (r : Nat) (m : ClaudeMessage) :
    (pushAt arrays r m).length = arrays.length := by
  induction arrays generalizing r with
  | nil => rfl
  | cons a rest ih =>
      cases r with
      | zero => rfl
      | succ n => simpa [pushAt] using ih n

theorem toolResultIds_append (a b : List ClaudeMessage) :
    toolResultIds (a ++ b) = toolResultIds a ++ toolResultIds b := by
  simp [toolResultIds]

theorem noToolResult_append (ac : List HistBlock) (b : HistBlock)
    (hac : noToolResult ac = true) (hb : histBlockResultId b = none) :
    noToolResult (ac ++ [b]) = true := by
  simp only [noToolResult, List.all_append, List.all_cons, List.all_nil]
  simp only [noToolResult] at hac
  simp [hac, hb]

theorem filterMap_noToolResult (ac : List HistBlock) (hac : noToolResult ac = true) :
    ac.filterMap histBlockResultId = [] := by
  induction ac with
  | nil => rfl
  | cons b rest ih =>
      simp only [noToolResult, List.all_cons, Bool.and_eq_true] at hac
      obtain ⟨hb, hrest⟩ := hac
      rw [List.filterMap_cons, Option.isNone_iff_eq_none.mp hb]
      exact ih hrest

theorem processBlocks_resolved_ids (tools : List Tool) (blocks : List ContentBlock)
    (tc : String) (ac : List HistBlock) (streamed : List String) (w : World)
    (h : List ClaudeMessage) (hac : noToolResult ac = true) :
    toolResultIds (processBlocks tools blocks tc ac streamed w h).history =
      toolResultIds h ++ (firstKnownId tools blocks).toList := by
  induction blocks generalizing tc ac streamed w h with
  | nil => simp [processBlocks, firstKnownId]
  | cons b rest ih =>
      cases b with
      | text s =>
          rw [show processBlocks tools (ContentBlock.text s :: rest) tc ac streamed w h =
                processBlocks tools rest (tc ++ s) (ac ++ [.text s]) (streamed ++ [s]) w h
              from rfl]
          rw [ih _ _ _ _ _ (noToolResult_append ac (.text s) hac rfl)]
          rfl
      | toolUse id name input =>
          cases hf : findTool tools name with
          | none =>
              have hstep : processBlocks tools (ContentBlock.toolUse id name input :: rest)
                    tc ac streamed w h =
                  processBlocks tools rest tc (ac ++ [.toolUse id name input]) streamed w h := by
                simp [processBlocks, hf]
              rw [hstep, ih _ _ _ _ _
                (noToolResult_append ac (.toolUse id name input) hac rfl)]
              simp [firstKnownId, hf]
          | some tool =>
              simp only [processBlocks, hf]
              rw [toolResultIds_append]
              simp only [firstKnownId, hf, Option.toList]
              congr 1
              simp [toolResultIds, msgResultIds, histBlockResultId,
                filterMap_noToolResult (ac ++ [.toolUse id name input])
                  (noToolResult_append ac (.toolUse id name input) hac rfl)]

theorem processBlocks_all_unknown (tools : List Tool) (blocks : List ContentBlock) :
    ∀ (tc : String) (ac : List HistBlock) (streamed : List String) (w : World)
      (h : List ClaudeMessage),
      (∀ id name input, ContentBlock.toolUse id name input ∈ blocks →
        findTool tools name = none) →
      (processBlocks tools blocks tc ac streamed w h).history = h ∧
      (processBlocks tools blocks tc ac streamed w h).world = w ∧
      (processBlocks tools blocks tc ac streamed w h).toolHandled = false := by
  induction blocks with
  | nil => exact fun _ _ _ _ _ _ => ⟨rfl, rfl, rfl⟩
  | cons b rest ih =>
      intro tc ac streamed w h hunk
      cases b with
      | text s =>
          exact ih _ _ _ _ _ (fun i n inp hm => hunk i n inp (List.mem_cons_of_mem _ hm))
      | toolUse id name input =>
          have hf : findTool tools name = none :=
            hunk id name input (List.mem_cons_self _ _)
          have hstep : processBlocks tools (ContentBlock.toolUse id name input :: rest)
                tc ac streamed w h =
              processBlocks tools rest tc (ac ++ [.toolUse id name input]) streamed w h := by
            simp [processBlocks, hf]
          rw [hstep]
          exact ih _ _ _ _ _ (fun i n inp hm => hunk i n inp (List.mem_cons_of_mem _ hm))

/-! ### Claims -/

/-- C2: the code diverges from the claim.  Answering `always` returns
`approved=true`, but `requestPermission` never calls `setAutoApprove`:
the flag is still off afterwards, so the very next permission request
renders another prompt (the prompt log grows to two entries) instead of
auto-approving.  The prompt text itself offers `always` as an option,
so the code contradicts its own interface. -/
theorem C2_always_does_not_set_flag :
    (requestPermission { autoApproveEnabled := false, answers := ["always", "always"] }
      { action := .read, path := some "x.txt" }).1.approved = true ∧
    isAutoApproveEnabled
      (requestPermission { autoApproveEnabled := false, answers := ["always", "always"] }
        { action := .read, path := some "x.txt" }).2 = false ∧
    (requestPermission
      (requestPermission { autoApproveEnabled := false, answers := ["always", "always"] }
        { action := .read, path := some "x.txt" }).2
      { action := .execute, command := some "ls" }).2.promptLog.length = 2 := by
  decide

/-- C3: the code diverges from the claim.  Answering `never` falls into
the default branch of `requestPermission` and is an ordinary denial
(`approved=false, reason="User denied permission"`); nothing terminates
the process.  A full orchestrator run in which the permission prompt
for a tool call is answered `never` appends the denial as a ToolResult
Turn for the pending call, continues the loop, and appends a further
assistant Turn after the pending one. -/
theorem C3_never_is_ordinary_denial :
    (requestPermission { autoApproveEnabled := false, answers := ["never"] }
      { action := .execute, command := some "ls" }).1 =
      { approved := false, reason := some "User denied permission" } ∧
    (sendMessage (buildRegistry false) [] "run"
      [.ok ⟨[.toolUse "call_1" "execute_command" [("command", "ls")]], .toolUse⟩,
       .ok ⟨[.text "done"], .endTurn⟩]
      { perm := { answers := ["never"] } }).result = .ok "done" ∧
    toolResultIds (sendMessage (buildRegistry false) [] "run"
      [.ok ⟨[.toolUse "call_1" "execute_command" [("command", "ls")]], .toolUse⟩,
       .ok ⟨[.text "done"], .endTurn⟩]
      { perm := { answers := ["never"] } }).history = ["call_1"] ∧
    (sendMessage (buildRegistry false) [] "run"
      [.ok ⟨[.toolUse "call_1" "execute_command" [("command", "ls")]], .toolUse⟩,
       .ok ⟨[.text "done"], .endTurn⟩]
      { perm := { answers := ["never"] } }).history.length = 4 ∧
    (sendMessage (buildRegistry false) [] "run"
      [.ok ⟨[.toolUse "call_1" "execute_command" [("command", "ls")]], .toolUse⟩,
       .ok ⟨[.text "done"], .endTurn⟩]
      { perm := { answers := ["never"] } }).history.getLast? =
      some { role := "assistant", content := .inl "done" } := by
  decide

/-- C5 counterexample: the answer string `YES` is none of the literal
strings `yes`, `y`, `always`, yet `requestPermission` approves it,
because the code normalizes the answer with `toLowerCase().trim()`
before comparing. -/
theorem C5_counterexample :
    ¬("YES" = "yes" ∨ "YES" = "y" ∨ "YES" = "always") ∧
    (requestPermission { autoApproveEnabled := false, answers := ["YES"] }
      { action := .read, path := some "x.txt" }).1 = { approved := true } := by
  decide

/-- C5 (amended): with auto-approve off, every answer whose
lowercased, trimmed form is not `yes`, `y` or `always` (including the
empty input) yields `approved=false` with reason
`User denied permission`. -/
theorem C5_fail_closed (st : PermState) (req : PermissionRequest)
    (hauto : st.autoApproveEnabled = false)
    (hans : ¬(jsTrim (jsToLower (st.answers.headD "")) = "yes" ∨
              jsTrim (jsToLower (st.answers.headD "")) = "y" ∨
              jsTrim (jsToLower (st.answers.headD "")) = "always")) :
    (requestPermission st req).1 =
      { approved := false, reason := some "User denied permission" } := by
  unfold requestPermission
  rw [hauto]
  simp only [Bool.false_eq_true, if_false]
  rw [if_neg hans]

/-- C5 witness: the answer `nah` is denied with the fail-closed
reason. -/
theorem C5_fail_closed_witness :
    (requestPermission { autoApproveEnabled := false, answers := ["nah"] }
      { action := .read, path := some "x.txt" }).1 =
      { approved := false, reason := some "User denied permission" } :=
  C5_fail_closed _ _ rfl (by decide)

/-- C7: a scripted model-call failure makes the loop iteration abort
with exactly the history, world and stream log it started the iteration
with — no partial assistant Turn is appended — and the error value
itself is what `sendMessage` returns to its caller. -/
theorem C7_model_failure_aborts_round :
    (∀ (tools : List Tool) (ar : String) (h : List ClaudeMessage) (w : World)
       (s : List String) (e : String) (rest : List (Except String ModelResponse)),
       sendLoop tools ar h w s (.error e :: rest) = ⟨.error e, h, w, s⟩) ∧
    (∀ (tools : List Tool) (h : List ClaudeMessage) (msg : String) (w : World)
       (e : String) (rest : List (Except String ModelResponse)),
       sendMessage tools h msg (.error e :: rest) w =
         ⟨.error e, h ++ [{ role := "user", content := .inl msg }], w, []⟩) :=
  ⟨fun _ _ _ _ _ _ _ => rfl, fun _ _ _ _ _ _ => rfl⟩

/-- C8 counterexample: `getHistory` returns the agent's live array
reference.  The snapshot taken right after the first append
dereferences to exactly that turn, but after one more append the same
previously returned snapshot dereferences to both turns: the later
append changed it, so the snapshot does alias the live log. -/
theorem C8_counterexample :
    Heap.get (appendTurn ⟨[[]]⟩ ⟨0⟩ { role := "user", content := .inl "a" })
      (getHistory ⟨0⟩) = [{ role := "user", content := .inl "a" }] ∧
    Heap.get
      (appendTurn (appendTurn ⟨[[]]⟩ ⟨0⟩ { role := "user", content := .inl "a" })
        ⟨0⟩ { role := "assistant", content := .inl "b" })
      (getHistory ⟨0⟩) =
      [{ role := "user", content := .inl "a" },
       { role := "assistant", content := .inl "b" }] := by
  decide

/-- C8 (amended): a snapshot taken immediately after `append(turn)`
does include that turn, last, in insertion order — but the value
`getHistory` returns is the live array reference itself, so a later
append is visible through any previously returned snapshot. -/
theorem C8_snapshot_aliases_live_log (h : Heap) (a : AgentRef)
    (m m₂ : ClaudeMessage) (hv : a.histRef < h.arrays.length) :
    getHistory a = a.histRef ∧
    Heap.get (appendTurn h a m) (getHistory a) = Heap.get h a.histRef ++ [m] ∧
    Heap.get (appendTurn (appendTurn h a m) a m₂) (getHistory a) =
      Heap.get h a.histRef ++ [m, m₂] := by
  refine ⟨rfl, pushAt_getD h.arrays a.histRef m hv, ?_⟩
  have h₂ : (pushAt h.arrays a.histRef m).length = h.arrays.length :=
    pushAt_length h.arrays a.histRef m
  have := pushAt_getD (pushAt h.arrays a.histRef m) a.histRef m₂ (by rw [h₂]; exact hv)
  calc Heap.get (appendTurn (appendTurn h a m) a m₂) (getHistory a)
      = (pushAt h.arrays a.histRef m).getD a.histRef [] ++ [m₂] := this
    _ = (h.arrays.getD a.histRef [] ++ [m]) ++ [m₂] := by
        rw [pushAt_getD h.arrays a.histRef m hv]
    _ = Heap.get h a.histRef ++ [m, m₂] := by simp [Heap.get]

/-- C8 witness: the amended statement at a one-array heap holding one
turn already. -/
theorem C8_snapshot_aliases_live_log_witness :
    getHistory ⟨0⟩ = 0 ∧
    Heap.get (appendTurn ⟨[[{ role := "user", content := .inl "u" }]]⟩ ⟨0⟩
      { role := "assistant", content := .inl "v" }) (getHistory ⟨0⟩) =
      Heap.get ⟨[[{ role := "user", content := .inl "u" }]]⟩ 0 ++
        [{ role := "assistant", content := .inl "v" }] ∧
    Heap.get (appendTurn (appendTurn ⟨[[{ role := "user", content := .inl "u" }]]⟩ ⟨0⟩
      { role := "assistant", content := .inl "v" }) ⟨0⟩
      { role := "user", content := .inl "w" }) (getHistory ⟨0⟩) =
      Heap.get ⟨[[{ role := "user", content := .inl "u" }]]⟩ 0 ++
        [{ role := "assistant", content := .inl "v" },
         { role := "user", content := .inl "w" }] :=
  C8_snapshot_aliases_live_log ⟨[[{ role := "user", content := .inl "u" }]]⟩ ⟨0⟩
    { role := "assistant", content := .inl "v" }
    { role := "user", content := .inl "w" } (by decide)

/-- C9: the `/clear` command empties both the CLI history and the
agent's log and mints a fresh session identifier while leaving the
permission module (hence the AutoApproveFlag) untouched; run twice in a
row, the log is empty both times and the three session identifiers are
pairwise distinct.  The hypothesis is the `nanoid` freshness invariant:
the current identifier was issued by the supply, so it is below the
next fresh one. -/
theorem C9_clear_mints_fresh_session (st : CliState)
    (hid : st.currentSessionId < st.nextId) :
    (clearCommand st).conversationHistory = [] ∧
    (clearCommand st).agentHistory.getD [] = [] ∧
    (clearCommand st).currentSessionId ≠ st.currentSessionId ∧
    (clearCommand st).perm = st.perm ∧
    (clearCommand (clearCommand st)).conversationHistory = [] ∧
    (clearCommand (clearCommand st)).agentHistory.getD [] = [] ∧
    (clearCommand (clearCommand st)).currentSessionId ≠
      (clearCommand st).currentSessionId ∧
    (clearCommand (clearCommand st)).currentSessionId ≠ st.currentSessionId ∧
    (clearCommand (clearCommand st)).perm = st.perm := by
  refine ⟨rfl, ?_, ?_, rfl, rfl, ?_, ?_, ?_, rfl⟩
  · cases h : st.agentHistory <;> simp [clearCommand, h]
  · simp only [clearCommand, nanoid]; omega
  · cases h : st.agentHistory <;> simp [clearCommand, h]
  · simp only [clearCommand, nanoid]; omega
  · simp only [clearCommand, nanoid]; omega

/-- C9 witness: clearing a session with id 0, a nonempty log and
auto-approve on. -/
theorem C9_clear_mints_fresh_session_witness :
    (clearCommand ⟨0, [("user", "hi")], some [{ role := "user", content := .inl "hi" }],
      { autoApproveEnabled := true }, 1⟩).conversationHistory = [] ∧
    (clearCommand ⟨0, [("user", "hi")], some [{ role := "user", content := .inl "hi" }],
      { autoApproveEnabled := true }, 1⟩).agentHistory.getD [] = [] ∧
    (clearCommand ⟨0, [("user", "hi")], some [{ role := "user", content := .inl "hi" }],
      { autoApproveEnabled := true }, 1⟩).currentSessionId ≠ 0 ∧
    (clearCommand ⟨0, [("user", "hi")], some [{ role := "user", content := .inl "hi" }],
      { autoApproveEnabled := true }, 1⟩).perm = { autoApproveEnabled := true } ∧
    (clearCommand (clearCommand ⟨0, [("user", "hi")],
      some [{ role := "user", content := .inl "hi" }],
      { autoApproveEnabled := true }, 1⟩)).conversationHistory = [] ∧
    (clearCommand (clearCommand ⟨0, [("user", "hi")],
      some [{ role := "user", content := .inl "hi" }],
      { autoApproveEnabled := true }, 1⟩)).agentHistory.getD [] = [] ∧
    (clearCommand (clearCommand ⟨0, [("user", "hi")],
      some [{ role := "user", content := .inl "hi" }],
      { autoApproveEnabled := true }, 1⟩)).currentSessionId ≠
      (clearCommand ⟨0, [("user", "hi")], some [{ role := "user", content := .inl "hi" }],
        { autoApproveEnabled := true }, 1⟩).currentSessionId ∧
    (clearCommand (clearCommand ⟨0, [("user", "hi")],
      some [{ role := "user", content := .inl "hi" }],
      { autoApproveEnabled := true }, 1⟩)).currentSessionId ≠ 0 ∧
    (clearCommand (clearCommand ⟨0, [("user", "hi")],
      some [{ role := "user", content := .inl "hi" }],
      { autoApproveEnabled := true }, 1⟩)).perm = { autoApproveEnabled := true } :=
  C9_clear_mints_fresh_session
    ⟨0, [("user", "hi")], some [{ role := "user", content := .inl "hi" }],
      { autoApproveEnabled := true }, 1⟩ (by decide)

/-- C4 counterexample: a response calling the unregistered tool
`bogus_tool` produces no synthetic ToolResult Turn at all — the final
history holds only the user turn and the eventual assistant text turn,
and no `tool_result` id appears anywhere — although the loop survives
and continues to the next response. -/
theorem C4_counterexample :
    (sendMessage (buildRegistry false) [] "go"
      [.ok ⟨[.toolUse "call_9" "bogus_tool" []], .toolUse⟩,
       .ok ⟨[.text "hi"], .endTurn⟩] {}).result = .ok "hi" ∧
    toolResultIds (sendMessage (buildRegistry false) [] "go"
      [.ok ⟨[.toolUse "call_9" "bogus_tool" []], .toolUse⟩,
       .ok ⟨[.text "hi"], .endTurn⟩] {}).history = [] ∧
    (sendMessage (buildRegistry false) [] "go"
      [.ok ⟨[.toolUse "call_9" "bogus_tool" []], .toolUse⟩,
       .ok ⟨[.text "hi"], .endTurn⟩] {}).history =
      [{ role := "user", content := .inl "go" },
       { role := "assistant", content := .inl "hi" }] := by
  decide

/-- C4 (amended): on a response whose tool-call blocks all name
unregistered tools the loop does not crash, but it appends no Turn at
all for them — no ToolResult (synthetic or otherwise) answers their
call ids, no executor runs (the world is untouched) — and the loop
then continues; a concrete two-round run ends normally with the
unknown call id left unanswered. -/
theorem C4_unknown_tool_silently_skipped :
    (∀ (tools : List Tool) (blocks : List ContentBlock) (tc : String)
       (ac : List HistBlock) (streamed : List String) (w : World)
       (h : List ClaudeMessage),
       (∀ id name input, ContentBlock.toolUse id name input ∈ blocks →
         findTool tools name = none) →
       (processBlocks tools blocks tc ac streamed w h).history = h ∧
       (processBlocks tools blocks tc ac streamed w h).world = w ∧
       (processBlocks tools blocks tc ac streamed w h).toolHandled = false) ∧
    ((sendMessage (buildRegistry false) [] "list files"
      [.ok ⟨[.toolUse "call_7" "make_coffee" []], .toolUse⟩,
       .ok ⟨[.text "ok"], .endTurn⟩] {}).history =
      [{ role := "user", content := .inl "list files" },
       { role := "assistant", content := .inl "ok" }] ∧
     (sendMessage (buildRegistry false) [] "list files"
      [.ok ⟨[.toolUse "call_7" "make_coffee" []], .toolUse⟩,
       .ok ⟨[.text "ok"], .endTurn⟩] {}).result = .ok "ok") :=
  ⟨fun tools blocks tc ac streamed w h hunk =>
     processBlocks_all_unknown tools blocks tc ac streamed w h hunk,
   by decide⟩

/-- C4 witness: the general part applied to a response with one
unknown-named tool-call block against the full local registry. -/
theorem C4_unknown_tool_silently_skipped_witness :
    (processBlocks (buildRegistry false) [.toolUse "z" "make_tea" []] "" [] [] {} []).history
        = [] ∧
    (processBlocks (buildRegistry false) [.toolUse "z" "make_tea" []] "" [] [] {} []).world
        = {} ∧
    (processBlocks (buildRegistry false)
        [.toolUse "z" "make_tea" []] "" [] [] {} []).toolHandled = false := by
  refine C4_unknown_tool_silently_skipped.1 (buildRegistry false)
    [.toolUse "z" "make_tea" []] "" [] [] {} [] ?_
  intro id name input hm
  simp only [List.mem_singleton, ContentBlock.toolUse.injEq] at hm
  rw [hm.2.1]
  rfl

/-- C6 counterexample: in a response whose first tool-call block names
an unregistered tool and whose second names `read_file`, the resolved
call is the second block, not the first: the only ToolResult appended
answers `c2`, and the read effect ran. -/
theorem C6_counterexample :
    firstToolUseId
      [.toolUse "c1" "bogus" [], .toolUse "c2" "read_file" [("path", "x.txt")]] =
      some "c1" ∧
    toolResultIds (processBlocks (buildRegistry false)
      [.toolUse "c1" "bogus" [], .toolUse "c2" "read_file" [("path", "x.txt")]]
      "" [] [] { perm := { autoApproveEnabled := true }, effects := [.ok "data"] }
      []).history = ["c2"] ∧
    (processBlocks (buildRegistry false)
      [.toolUse "c1" "bogus" [], .toolUse "c2" "read_file" [("path", "x.txt")]]
      "" [] [] { perm := { autoApproveEnabled := true }, effects := [.ok "data"] }
      []).world.trace.getLast? = some (.eff (.fsReadFile "x.txt")) := by
  decide

/-- C6 (amended): per model round-trip at most one tool-call block is
resolved, namely the first one whose tool name is in the registry: the
ToolResult ids a block pass appends to the history are exactly
`(firstKnownId tools blocks).toList` — the empty list or that single
id. -/
theorem C6_first_registered_tool_resolved (tools : List Tool)
    (blocks : List ContentBlock) (tc : String) (streamed : List String)
    (w : World) (h : List ClaudeMessage) :
    toolResultIds (processBlocks tools blocks tc [] streamed w h).history =
      toolResultIds h ++ (firstKnownId tools blocks).toList :=
  processBlocks_resolved_ids tools blocks tc [] streamed w h rfl

/-- C10 counterexample: a response with stop reason `max_tokens` that
carries a registered tool-call block still executes the tool and
appends its assistant and ToolResult Turns before the loop exits with
the empty string — the claim that no assistant Turn is appended fails
here. -/
theorem C10_counterexample :
    (sendMessage (buildRegistry false) [] "msg"
      [.ok ⟨[.toolUse "c9" "read_file" [("path", "a.txt")]], .other "max_tokens"⟩]
      { perm := { autoApproveEnabled := true }, effects := [.ok "hello"] }).result =
      .ok "" ∧
    (sendMessage (buildRegistry false) [] "msg"
      [.ok ⟨[.toolUse "c9" "read_file" [("path", "a.txt")]], .other "max_tokens"⟩]
      { perm := { autoApproveEnabled := true }, effects := [.ok "hello"] }).history.length =
      3 ∧
    (sendMessage (buildRegistry false) [] "msg"
      [.ok ⟨[.toolUse "c9" "read_file" [("path", "a.txt")]], .other "max_tokens"⟩]
      { perm := { autoApproveEnabled := true }, effects := [.ok "hello"] }).history.get? 1 =
      some (ClaudeMessage.mk "assistant"
        (.inr [.toolUse "c9" "read_file" [("path", "a.txt")]])) ∧
    toolResultIds (sendMessage (buildRegistry false) [] "msg"
      [.ok ⟨[.toolUse "c9" "read_file" [("path", "a.txt")]], .other "max_tokens"⟩]
      { perm := { autoApproveEnabled := true }, effects := [.ok "hello"] }).history =
      ["c9"] := by
  decide

/-- C10 (amended): on a response whose stop reason is neither
`end_turn` nor `tool_use` the loop exits at once (ignoring the rest of
the script), returns the never-assigned empty `assistantResponse`, and
appends exactly what the single block pass appended — so nothing at
all when no block names a registered tool, but the Turns of a resolved
tool call otherwise; no final assistant text Turn is appended. -/
theorem C10_other_stop_exits_with_empty_string (tools : List Tool)
    (h : List ClaudeMessage) (w : World) (streamed : List String)
    (rest : List (Except String ModelResponse)) (r : ModelResponse)
    (h₁ : r.stop_reason ≠ .endTurn) (h₂ : r.stop_reason ≠ .toolUse) :
    sendLoop tools "" h w streamed (.ok r :: rest) =
      ⟨.ok "", (processBlocks tools r.content "" [] streamed w h).history,
       (processBlocks tools r.content "" [] streamed w h).world,
       (processBlocks tools r.content "" [] streamed w h).streamed⟩ ∧
    ((∀ id name input, ContentBlock.toolUse id name input ∈ r.content →
        findTool tools name = none) →
      (sendLoop tools "" h w streamed (.ok r :: rest)).history = h) := by
  have hmain : sendLoop tools "" h w streamed (.ok r :: rest) =
      ⟨.ok "", (processBlocks tools r.content "" [] streamed w h).history,
       (processBlocks tools r.content "" [] streamed w h).world,
       (processBlocks tools r.content "" [] streamed w h).streamed⟩ := by
    simp [sendLoop, h₁, h₂]
  refine ⟨hmain, fun hunk => ?_⟩
  rw [hmain]
  exact (processBlocks_all_unknown tools r.content "" [] streamed w h hunk).1

/-- C10 witness: a `max_tokens` response with a lone text block exits
with the empty string and leaves the history untouched. -/
theorem C10_other_stop_exits_with_empty_string_witness :
    (sendLoop (buildRegistry false) "" [] {} []
      [.ok ⟨[.text "t"], .other "max_tokens"⟩]).history = [] := by
  have h := C10_other_stop_exits_with_empty_string (buildRegistry false) [] {} []
    [] ⟨[.text "t"], .other "max_tokens"⟩ (by decide) (by decide)
  refine h.2 ?_
  intro id name input hm
  simp at hm

theorem readFile_execute_gated (p : PermState) (effs : List (Except String String))
    (input : ToolInput) :
    gatedFrom false ((readFile_execute input ⟨p, [], effs⟩).2.trace) = true := by
  rcases p with ⟨auto, answers, plog, clog⟩
  cases auto with
  | true =>
      rcases effs with _ | ⟨e1, efs⟩
      · simp [readFile_execute, requestPermissionW, requestPermission, performEffect,
          gatedFrom]
      · cases e1 <;>
          simp [readFile_execute, requestPermissionW, requestPermission, performEffect,
            gatedFrom]
  | false =>
      by_cases hc : (jsTrim (jsToLower (answers.head?.getD "")) = "yes" ∨
          jsTrim (jsToLower (answers.head?.getD "")) = "y" ∨
          jsTrim (jsToLower (answers.head?.getD "")) = "always")
      · rcases effs with _ | ⟨e1, efs⟩
        · simp [readFile_execute, requestPermissionW, requestPermission, performEffect,
            gatedFrom, hc]
        · cases e1 <;>
            simp [readFile_execute, requestPermissionW, requestPermission, performEffect,
              gatedFrom, hc]
      · simp [readFile_execute, requestPermissionW, requestPermission, performEffect,
          gatedFrom, hc]

theorem listDirectory_execute_gated (p : PermState) (effs : List (Except String String))
    (input : ToolInput) :
    gatedFrom false ((listDirectory_execute input ⟨p, [], effs⟩).2.trace) = true := by
  rcases p with ⟨auto, answers, plog, clog⟩
  cases auto with
  | true =>
      rcases effs with _ | ⟨e1, efs⟩
      · simp [listDirectory_execute, requestPermissionW, requestPermission, performEffect,
          gatedFrom]
      · cases e1 <;>
          simp [listDirectory_execute, requestPermissionW, requestPermission, performEffect,
            gatedFrom]
  | false =>
      by_cases hc : (jsTrim (jsToLower (answers.head?.getD "")) = "yes" ∨
          jsTrim (jsToLower (answers.head?.getD "")) = "y" ∨
          jsTrim (jsToLower (answers.head?.getD "")) = "always")
      · rcases effs with _ | ⟨e1, efs⟩
        · simp [listDirectory_execute, requestPermissionW, requestPermission, performEffect,
            gatedFrom, hc]
        · cases e1 <;>
            simp [listDirectory_execute, requestPermissionW, requestPermission, performEffect,
              gatedFrom, hc]
      · simp [listDirectory_execute, requestPermissionW, requestPermission, performEffect,
          gatedFrom, hc]

theorem executeCommand_execute_gated (p : PermState) (effs : List (Except String String))
    (input : ToolInput) :
    gatedFrom false ((executeCommand_execute input ⟨p, [], effs⟩).2.trace) = true := by
  rcases p with ⟨auto, answers, plog, clog⟩
  cases auto with
  | true =>
      rcases effs with _ | ⟨e1, efs⟩
      · simp [executeCommand_execute, requestPermissionW, requestPermission, performEffect,
          gatedFrom]
      · cases e1 <;>
          simp [executeCommand_execute, requestPermissionW, requestPermission, performEffect,
            gatedFrom]
  | false =>
      by_cases hc : (jsTrim (jsToLower (answers.head?.getD "")) = "yes" ∨
          jsTrim (jsToLower (answers.head?.getD "")) = "y" ∨
          jsTrim (jsToLower (answers.head?.getD "")) = "always")
      · rcases effs with _ | ⟨e1, efs⟩
        · simp [executeCommand_execute, requestPermissionW, requestPermission, performEffect,
            gatedFrom, hc]
        · cases e1 <;>
            simp [executeCommand_execute, requestPermissionW, requestPermission, performEffect,
              gatedFrom, hc]
      · simp [executeCommand_execute, requestPermissionW, requestPermission, performEffect,
          gatedFrom, hc]

theorem gitCreateBranch_execute_gated (p : PermState) (effs : List (Except String String))
    (input : ToolInput) :
    gatedFrom false ((gitCreateBranch_execute input ⟨p, [], effs⟩).2.trace) = true := by
  rcases p with ⟨auto, answers, plog, clog⟩
  cases auto with
  | true =>
      rcases effs with _ | ⟨e1, efs⟩
      · simp [gitCreateBranch_execute, requestPermissionW, requestPermission, performEffect,
          gatedFrom]
      · cases e1 <;>
          simp [gitCreateBranch_execute, requestPermissionW, requestPermission, performEffect,
            gatedFrom]
  | false =>
      by_cases hc : (jsTrim (jsToLower (answers.head?.getD "")) = "yes" ∨
          jsTrim (jsToLower (answers.head?.getD "")) = "y" ∨
          jsTrim (jsToLower (answers.head?.getD "")) = "always")
      · rcases effs with _ | ⟨e1, efs⟩
        · simp [gitCreateBranch_execute, requestPermissionW, requestPermission, performEffect,
            gatedFrom, hc]
        · cases e1 <;>
            simp [gitCreateBranch_execute, requestPermissionW, requestPermission, performEffect,
              gatedFrom, hc]
      · simp [gitCreateBranch_execute, requestPermissionW, requestPermission, performEffect,
          gatedFrom, hc]

theorem writeFile_execute_gated (p : PermState) (effs : List (Except String String))
    (input : ToolInput) :
    gatedFrom false ((writeFile_execute input ⟨p, [], effs⟩).2.trace) = true := by
  rcases p with ⟨auto, answers, plog, clog⟩
  cases auto with
  | true =>
      rcases effs with _ | ⟨e1, _ | ⟨e2, efs⟩⟩
      · simp [writeFile_execute, requestPermissionW, requestPermission, performEffect,
          gatedFrom]
      · cases e1 <;>
          simp [writeFile_execute, requestPermissionW, requestPermission, performEffect,
            gatedFrom]
      · cases e1 with
        | error e =>
            simp [writeFile_execute, requestPermissionW, requestPermission, performEffect,
              gatedFrom]
        | ok s =>
            cases e2 <;>
              simp [writeFile_execute, requestPermissionW, requestPermission, performEffect,
                gatedFrom]
  | false =>
      by_cases hc : (jsTrim (jsToLower (answers.head?.getD "")) = "yes" ∨
          jsTrim (jsToLower (answers.head?.getD "")) = "y" ∨
          jsTrim (jsToLower (answers.head?.getD "")) = "always")
      · rcases effs with _ | ⟨e1, _ | ⟨e2, efs⟩⟩
        · simp [writeFile_execute, requestPermissionW, requestPermission, performEffect,
            gatedFrom, hc]
        · cases e1 <;>
            simp [writeFile_execute, requestPermissionW, requestPermission, performEffect,
              gatedFrom, hc]
        · cases e1 with
          | error e =>
              simp [writeFile_execute, requestPermissionW, requestPermission, performEffect,
                gatedFrom, hc]
          | ok s =>
              cases e2 <;>
                simp [writeFile_execute, requestPermissionW, requestPermission, performEffect,
                  gatedFrom, hc]
      · simp [writeFile_execute, requestPermissionW, requestPermission, performEffect,
          gatedFrom, hc]

theorem gitCommit_execute_gated (p : PermState) (effs : List (Except String String))
    (input : ToolInput) :
    gatedFrom false ((gitCommit_execute input ⟨p, [], effs⟩).2.trace) = true := by
  rcases p with ⟨auto, answers, plog, clog⟩
  cases auto with
  | true =>
      rcases effs with _ | ⟨e1, _ | ⟨e2, efs⟩⟩
      · simp [gitCommit_execute, requestPermissionW, requestPermission, performEffect,
          gatedFrom]
      · cases e1 <;>
          simp [gitCommit_execute, requestPermissionW, requestPermission, performEffect,
            gatedFrom]
      · cases e1 with
        | error e =>
            simp [gitCommit_execute, requestPermissionW, requestPermission, performEffect,
              gatedFrom]
        | ok s =>
            cases e2 <;>
              simp [gitCommit_execute, requestPermissionW, requestPermission, performEffect,
                gatedFrom]
  | false =>
      by_cases hc : (jsTrim (jsToLower (answers.head?.getD "")) = "yes" ∨
          jsTrim (jsToLower (answers.head?.getD "")) = "y" ∨
          jsTrim (jsToLower (answers.head?.getD "")) = "always")
      · rcases effs with _ | ⟨e1, _ | ⟨e2, efs⟩⟩
        · simp [gitCommit_execute, requestPermissionW, requestPermission, performEffect,
            gatedFrom, hc]
        · cases e1 <;>
            simp [gitCommit_execute, requestPermissionW, requestPermission, performEffect,
              gatedFrom, hc]
        · cases e1 with
          | error e =>
              simp [gitCommit_execute, requestPermissionW, requestPermission, performEffect,
                gatedFrom, hc]
          | ok s =>
              cases e2 <;>
                simp [gitCommit_execute, requestPermissionW, requestPermission, performEffect,
                  gatedFrom, hc]
      · simp [gitCommit_execute, requestPermissionW, requestPermission, performEffect,
          gatedFrom, hc]

theorem webSearch_execute_gated (p : PermState) (effs : List (Except String String))
    (input : ToolInput) :
    gatedFrom false ((webSearch_execute input ⟨p, [], effs⟩).2.trace) = true := by
  rcases p with ⟨auto, answers, plog, clog⟩
  cases auto with
  | true =>
      rcases effs with _ | ⟨e1, efs⟩
      · simp [webSearch_execute, requestPermissionW, requestPermission, performEffect,
          gatedFrom]
      · cases e1 with
        | error e =>
            simp [webSearch_execute, requestPermissionW, requestPermission, performEffect,
              gatedFrom]
        | ok s =>
            by_cases hs : s = "" <;>
              simp [webSearch_execute, requestPermissionW, requestPermission, performEffect,
                gatedFrom, hs]
  | false =>
      by_cases hc : (jsTrim (jsToLower (answers.head?.getD "")) = "yes" ∨
          jsTrim (jsToLower (answers.head?.getD "")) = "y" ∨
          jsTrim (jsToLower (answers.head?.getD "")) = "always")
      · rcases effs with _ | ⟨e1, efs⟩
        · simp [webSearch_execute, requestPermissionW, requestPermission, performEffect,
            gatedFrom, hc]
        · cases e1 with
          | error e =>
              simp [webSearch_execute, requestPermissionW, requestPermission, performEffect,
                gatedFrom, hc]
          | ok s =>
              by_cases hs : s = "" <;>
                simp [webSearch_execute, requestPermissionW, requestPermission, performEffect,
                  gatedFrom, hc, hs]
      · simp [webSearch_execute, requestPermissionW, requestPermission, performEffect,
          gatedFrom, hc]

theorem fetchWebpage_execute_gated (p : PermState) (effs : List (Except String String))
    (input : ToolInput) :
    gatedFrom false ((fetchWebpage_execute input ⟨p, [], effs⟩).2.trace) = true := by
  rcases p with ⟨auto, answers, plog, clog⟩
  cases auto with
  | true =>
      rcases effs with _ | ⟨e1, efs⟩
      · simp [fetchWebpage_execute, requestPermissionW, requestPermission, performEffect,
          gatedFrom]
      · cases e1 <;>
          simp [fetchWebpage_execute, requestPermissionW, requestPermission, performEffect,
            gatedFrom]
  | false =>
      by_cases hc : (jsTrim (jsToLower (answers.head?.getD "")) = "yes" ∨
          jsTrim (jsToLower (answers.head?.getD "")) = "y" ∨
          jsTrim (jsToLower (answers.head?.getD "")) = "always")
      · rcases effs with _ | ⟨e1, efs⟩
        · simp [fetchWebpage_execute, requestPermissionW, requestPermission, performEffect,
            gatedFrom, hc]
        · cases e1 <;>
            simp [fetchWebpage_execute, requestPermissionW, requestPermission, performEffect,
              gatedFrom, hc]
      · simp [fetchWebpage_execute, requestPermissionW, requestPermission, performEffect,
          gatedFrom, hc]

theorem gitPush_execute_status_then_gate (p : PermState)
    (effs : List (Except String String)) (input : ToolInput) :
    ((gitPush_execute input ⟨p, [], effs⟩).2.trace).take 1 = [.eff .gitStatus] ∧
    gatedFrom false (((gitPush_execute input ⟨p, [], effs⟩).2.trace).drop 1) = true := by
  rcases p with ⟨auto, answers, plog, clog⟩
  cases auto with
  | true =>
      rcases effs with _ | ⟨e1, _ | ⟨e2, efs⟩⟩
      · simp [gitPush_execute, requestPermissionW, requestPermission, performEffect,
          gatedFrom]
      · cases e1 <;>
          simp [gitPush_execute, requestPermissionW, requestPermission, performEffect,
            gatedFrom]
      · cases e1 with
        | error e =>
            simp [gitPush_execute, requestPermissionW, requestPermission, performEffect,
              gatedFrom]
        | ok s =>
            cases e2 <;>
              simp [gitPush_execute, requestPermissionW, requestPermission, performEffect,
                gatedFrom]
  | false =>
      by_cases hc : (jsTrim (jsToLower (answers.head?.getD "")) = "yes" ∨
          jsTrim (jsToLower (answers.head?.getD "")) = "y" ∨
          jsTrim (jsToLower (answers.head?.getD "")) = "always")
      · rcases effs with _ | ⟨e1, _ | ⟨e2, efs⟩⟩
        · simp [gitPush_execute, requestPermissionW, requestPermission, performEffect,
            gatedFrom, hc]
        · cases e1 <;>
            simp [gitPush_execute, requestPermissionW, requestPermission, performEffect,
              gatedFrom, hc]
        · cases e1 with
          | error e =>
              simp [gitPush_execute, requestPermissionW, requestPermission, performEffect,
                gatedFrom, hc]
          | ok s =>
              cases e2 <;>
                simp [gitPush_execute, requestPermissionW, requestPermission, performEffect,
                  gatedFrom, hc]
      · rcases effs with _ | ⟨e1, efs⟩
        · simp [gitPush_execute, requestPermissionW, requestPermission, performEffect,
            gatedFrom, hc]
        · cases e1 <;>
            simp [gitPush_execute, requestPermissionW, requestPermission, performEffect,
              gatedFrom, hc]

theorem gitStatus_execute_ungated (w : World) :
    (gitStatus_execute w).2.trace = w.trace ++ [.eff .gitStatus] ∧
    (gitStatus_execute w).2.perm = w.perm := by
  rcases w with ⟨p, tr, effs⟩
  rcases effs with _ | ⟨e1, efs⟩
  · simp [gitStatus_execute, performEffect]
  · cases e1 <;> simp [gitStatus_execute, performEffect]

theorem gitDiff_execute_ungated (w : World) :
    (gitDiff_execute w).2.trace = w.trace ++ [.eff .gitDiff] ∧
    (gitDiff_execute w).2.perm = w.perm := by
  rcases w with ⟨p, tr, effs⟩
  rcases effs with _ | ⟨e1, efs⟩
  · simp [gitDiff_execute, performEffect]
  · cases e1 <;> simp [gitDiff_execute, performEffect]

theorem logLinePromptFetch_execute_ungated (w : World) :
    (logLinePromptFetch_execute w).2.trace = w.trace ++ [.eff (.loglineBoot "PROMPT_FETCH")] ∧
    (logLinePromptFetch_execute w).2.perm = w.perm := by
  rcases w with ⟨p, tr, effs⟩
  rcases effs with _ | ⟨e1, efs⟩
  · simp [logLinePromptFetch_execute, performEffect]
  · cases e1 <;> simp [logLinePromptFetch_execute, performEffect]

theorem logLineMemoryStore_execute_ungated (w : World) :
    (logLineMemoryStore_execute w).2.trace = w.trace ++ [.eff (.loglineBoot "MEMORY_STORE")] ∧
    (logLineMemoryStore_execute w).2.perm = w.perm := by
  rcases w with ⟨p, tr, effs⟩
  rcases effs with _ | ⟨e1, efs⟩
  · simp [logLineMemoryStore_execute, performEffect]
  · cases e1 <;> simp [logLineMemoryStore_execute, performEffect]

theorem logLineMemorySearch_execute_ungated (w : World) :
    (logLineMemorySearch_execute w).2.trace = w.trace ++ [.eff (.loglineBoot "MEMORY_STORE")] ∧
    (logLineMemorySearch_execute w).2.perm = w.perm := by
  rcases w with ⟨p, tr, effs⟩
  rcases effs with _ | ⟨e1, efs⟩
  · simp [logLineMemorySearch_execute, performEffect]
  · cases e1 <;> simp [logLineMemorySearch_execute, performEffect]

/-- C1 counterexample: the `git_status` executor performs its
version-control effect with no permission-gate round trip at all — its
invocation trace is the bare effect, which fails the gating check — and
the LogLine memory-store executor likewise calls the remote service
without any permission request. -/
theorem C1_counterexample :
    (gitStatus_execute {}).2.trace = [.eff .gitStatus] ∧
    gatedFrom false ((gitStatus_execute {}).2.trace) = false ∧
    (logLineMemoryStore_execute {}).2.trace = [.eff (.loglineBoot "MEMORY_STORE")] ∧
    gatedFrom false ((logLineMemoryStore_execute {}).2.trace) = false := by
  decide

/-- C1 (amended): the permission gate covers only part of the
capability set.  The file-system executors, the shell executor, the git
commit and branch executors and the two web executors request
permission first and perform effects only after an approved decision
(their invocation traces are gated).  The `git_push` executor runs a
`git status` query before its permission request and gates only the
push itself.  The `git_status` and `git_diff` executors and the three
LogLine executors perform their effects without ever invoking the
gate (their traces gain only the effect and their permission state is
untouched). -/
theorem C1_gate_coverage :
    (∀ (p : PermState) (effs : List (Except String String)) (input : ToolInput),
      gatedFrom false ((readFile_execute input ⟨p, [], effs⟩).2.trace) = true) ∧
    (∀ (p : PermState) (effs : List (Except String String)) (input : ToolInput),
      gatedFrom false ((writeFile_execute input ⟨p, [], effs⟩).2.trace) = true) ∧
    (∀ (p : PermState) (effs : List (Except String String)) (input : ToolInput),
      gatedFrom false ((listDirectory_execute input ⟨p, [], effs⟩).2.trace) = true) ∧
    (∀ (p : PermState) (effs : List (Except String String)) (input : ToolInput),
      gatedFrom false ((executeCommand_execute input ⟨p, [], effs⟩).2.trace) = true) ∧
    (∀ (p : PermState) (effs : List (Except String String)) (input : ToolInput),
      gatedFrom false ((gitCommit_execute input ⟨p, [], effs⟩).2.trace) = true) ∧
    (∀ (p : PermState) (effs : List (Except String String)) (input : ToolInput),
      gatedFrom false ((gitCreateBranch_execute input ⟨p, [], effs⟩).2.trace) = true) ∧
    (∀ (p : PermState) (effs : List (Except String String)) (input : ToolInput),
      gatedFrom false ((webSearch_execute input ⟨p, [], effs⟩).2.trace) = true) ∧
    (∀ (p : PermState) (effs : List (Except String String)) (input : ToolInput),
      gatedFrom false ((fetchWebpage_execute input ⟨p, [], effs⟩).2.trace) = true) ∧
    (∀ (p : PermState) (effs : List (Except String String)) (input : ToolInput),
      ((gitPush_execute input ⟨p, [], effs⟩).2.trace).take 1 = [.eff .gitStatus] ∧
      gatedFrom false (((gitPush_execute input ⟨p, [], effs⟩).2.trace).drop 1) = true) ∧
    (∀ w : World, (gitStatus_execute w).2.trace = w.trace ++ [.eff .gitStatus] ∧
      (gitStatus_execute w).2.perm = w.perm) ∧
    (∀ w : World, (gitDiff_execute w).2.trace = w.trace ++ [.eff .gitDiff] ∧
      (gitDiff_execute w).2.perm = w.perm) ∧
    (∀ w : World, (logLinePromptFetch_execute w).2.trace =
        w.trace ++ [.eff (.loglineBoot "PROMPT_FETCH")] ∧
      (logLinePromptFetch_execute w).2.perm = w.perm) ∧
    (∀ w : World, (logLineMemoryStore_execute w).2.trace =
        w.trace ++ [.eff (.loglineBoot "MEMORY_STORE")] ∧
      (logLineMemoryStore_execute w).2.perm = w.perm) ∧
    (∀ w : World, (logLineMemorySearch_execute w).2.trace =
        w.trace ++ [.eff (.loglineBoot "MEMORY_STORE")] ∧
      (logLineMemorySearch_execute w).2.perm = w.perm) :=
  ⟨readFile_execute_gated, writeFile_execute_gated, listDirectory_execute_gated,
   executeCommand_execute_gated, gitCommit_execute_gated, gitCreateBranch_execute_gated,
   webSearch_execute_gated, fetchWebpage_execute_gated, gitPush_execute_status_then_gate,
   gitStatus_execute_ungated, gitDiff_execute_ungated, logLinePromptFetch_execute_ungated,
   logLineMemoryStore_execute_ungated, logLineMemorySearch_execute_ungated⟩

end CodingAgent
